import Mathlib

/-!
Verification of the Makcu Go serial-transport library (connection.go, mouse.go,
errors.go) against its natural-language specification.

The Go code is shallowly embedded: each Go function relevant to the claims is
translated into a pure Lean function over explicit state.  Go machine integers
are modelled as `Nat` / `Int` (all values involved stay far from overflow);
Go `map[int]*PendingCommand` is modelled as an association list with the map
key as first component; a buffered `chan string` of capacity 1 is modelled as
an `Option String` (`none` = empty, `some v` = holds `v`); `time.Time` /
`time.Duration` are modelled as `Int` nanoseconds.
-/

namespace Makcu

/-! ## errors.go -/

/-- Error kinds, mirroring the four sentinel errors of errors.go wrapped by
`MakcuError` (`NewConnectionError`, `NewCommandError`, `NewTimeoutError`,
`NewResponseError`).  Constructors are distinct, so callers can branch on the
error kind, as `errors.Is` does in Go. -/
inductive MakcuError where
  | connection (msg : String)
  | command (msg : String)
  | timeout (msg : String)
  | response (msg : String)
deriving DecidableEq, Repr

/-! ## Time constants (nanoseconds, as Go `time.Duration`) -/

def timeMillisecond : Int := 1000000

def timeSecond : Int := 1000000000

/-- `DefaultTimeout = 100 * time.Millisecond` (connection.go). -/
def DefaultTimeout : Int := 100 * timeMillisecond

def maxReconnectAttempts : Nat := 3

/-! ## ASCII string helpers

Go's `strings.TrimSpace` / `strings.ToUpper` / `strings.HasPrefix` are
modelled at the character-list level (the protocol strings involved are all
ASCII), because the core `String` primitives do not reduce inside the
kernel. -/

/-- An ASCII whitespace character, as trimmed by `strings.TrimSpace`. -/
def isSpaceByte (c : Char) : Bool :=
  c == ' ' || c == '\t' || c == '\n' || c == '\x0b' || c == '\x0c' || c == '\r'

/-- `strings.TrimSpace` on a character list: drop leading and trailing
whitespace. -/
def trimChars (l : List Char) : List Char :=
  (((l.dropWhile isSpaceByte).reverse).dropWhile isSpaceByte).reverse

/-- `strings.TrimSpace` on a string. -/
def asciiTrim (s : String) : String := String.mk (trimChars s.data)

/-- `strings.ToUpper` for one ASCII character. -/
def upperChar (c : Char) : Char :=
  if 'a' ≤ c ∧ c ≤ 'z' then Char.ofNat (c.toNat - 32) else c

/-- `strings.ToUpper` on an ASCII string. -/
def asciiUpper (s : String) : String := String.mk (s.data.map upperChar)

/-! ## PendingCommand and the pending-command table (connection.go) -/

/-- connection.go `PendingCommand`: a command awaiting a response.
`resultCh` models the capacity-1 buffered channel `ResultCh chan string`. -/
structure PendingCommand where
  commandID : Nat
  command : String
  resultCh : Option String
  timestamp : Int
deriving DecidableEq, Repr

/-- The `pendingCommands map[int]*PendingCommand` field: an association list
keyed by the command id. -/
abbrev PendingTable := List (Nat × PendingCommand)

/-- A non-blocking send on a capacity-1 channel:
`select { case ch <- v: default: }` — delivers `v` if the channel is empty,
drops it if the channel is already full. -/
def trySendResult (ch : Option String) (v : String) : Option String :=
  match ch with
  | none => some v
  | some x => some x

/-- The body of the min-id scan in `processPendingCommands`:
`if oldestID == -1 || id < oldestID { oldestID = id }`, after the sentinel
`-1` has been replaced by the first key seen. -/
def oldestAux (l : PendingTable) (m : Nat) : Nat :=
  l.foldl (fun acc p => if p.1 < acc then p.1 else acc) m

/-- The min-id scan of `processPendingCommands` over the whole table, with
`none` playing the role of the `-1` sentinel. -/
def oldestID (pcs : PendingTable) : Option Nat :=
  pcs.foldl
    (fun acc p =>
      match acc with
      | none => some p.1
      | some m => if p.1 < m then some p.1 else some m)
    none

/-- connection.go `processPendingCommands(content)`: routes a received text
response to the oldest pending command.  Returns the new table together with
the resolved entry (its result channel updated by the non-blocking send), or
`none` when nothing was resolved.  The two `(pcs, none)` fallback branches are
unreachable (`oldestID` is `some` on a non-empty table and its value is a key
of the table); they mirror total-function reading of the Go map indexing. -/
def processPendingCommands (content : String) (pcs : PendingTable) :
    PendingTable × Option PendingCommand :=
  if content = "" then (pcs, none)
  else if pcs.isEmpty then (pcs, none)
  else
    match oldestID pcs with
    | none => (pcs, none)
    | some oid =>
      match pcs.lookup oid with
      | none => (pcs, none)
      | some pending =>
        if content = pending.command then (pcs, none)
        else
          (pcs.filter (fun p => p.1 != oid),
           some { pending with resultCh := trySendResult pending.resultCh content })

/-- connection.go `cleanupTimedOutCommands`: removes every pending command
with `now.Sub(pending.Timestamp) > time.Second`. -/
def cleanupTimedOutCommands (now : Int) (pcs : PendingTable) : PendingTable :=
  pcs.filter (fun p => !(decide (timeSecond < now - p.2.timestamp)))

/-! ## SendCommand (connection.go) -/

/-- The transport state touched by `SendCommand`: the `isConnected` atomic
flag, whether `serialPort != nil`, the command-id counter and the pending
table. -/
structure TransportState where
  isConnected : Bool
  portOpen : Bool
  commandCounter : Nat
  pendingCommands : PendingTable
deriving DecidableEq, Repr

/-- connection.go `generateCommandID`:
`s.commandCounter = (s.commandCounter + 1) % 10000`. -/
def generateCommandID (st : TransportState) : TransportState × Nat :=
  let c := (st.commandCounter + 1) % 10000
  ({ st with commandCounter := c }, c)

/-- Truncation at the first `'#'` character, the char-list semantics of
`if idx := strings.Index(result, "#"); idx >= 0 { result = result[:idx] }`:
everything from the first `'#'` on is removed; a string with no `'#'` is
returned whole. -/
def takeUntilHash : List Char → List Char
  | [] => []
  | c :: cs => if c = '#' then [] else c :: takeUntilHash cs

/-- The response post-processing on the success path of `SendCommand`
(connection.go lines 282-284). -/
def stripResponseTag (result : String) : String :=
  String.mk (takeUntilHash result.data)

/-- Refinement-comparison definition following the claim's words, to be
compared with `stripResponseTag`: does `t` carry a trailing "#<id>" suffix,
i.e. end in a non-empty run of decimal digits immediately preceded by
a `'#'`? -/
def specHasTrailingIdSuffix (t : String) : Bool :=
  let rev := t.data.reverse
  let ds := rev.takeWhile Char.isDigit
  (!ds.isEmpty) && ((rev.drop ds.length).head? == some '#')

/-- Refinement-comparison definition following the claim's words: strip a
trailing "#<id>" suffix when present, return `t` unchanged otherwise. -/
def specStripTrailingIdSuffix (t : String) : String :=
  if specHasTrailingIdSuffix t then
    String.mk (((t.data.reverse.dropWhile Char.isDigit).drop 1).reverse)
  else t

/-- Which arm of the `select` in `SendCommand` fires first:
a value appears in the result channel, the stop channel is closed, or the
timeout elapses. -/
inductive AwaitEvent where
  | received (t : String)
  | stopSignal
  | timerExpired
deriving DecidableEq, Repr

/-- Outcome of `SendCommand`: the `(string, error)` return pair. -/
inductive SendOutcome where
  | ok (s : String)
  | err (e : MakcuError)
deriving DecidableEq, Repr

/-- The `select` at the end of `SendCommand` (connection.go lines 280-297),
as a function of which event arrives first. -/
def sendAwait (st : TransportState) (cmdID : Nat) (command : String)
    (ev : AwaitEvent) : TransportState × SendOutcome :=
  match ev with
  | .received result => (st, .ok (stripResponseTag result))
  | .stopSignal =>
      ({ st with pendingCommands := st.pendingCommands.filter (fun p => p.1 != cmdID) },
       .err (.connection "disconnected while waiting for response"))
  | .timerExpired =>
      ({ st with pendingCommands := st.pendingCommands.filter (fun p => p.1 != cmdID) },
       .err (.timeout ("command timed out: " ++ command)))

/-- Go map assignment `s.pendingCommands[cmdID] = pc`: replace any entry with
that key, otherwise add. -/
def tableInsert (k : Nat) (v : PendingCommand) (pcs : PendingTable) : PendingTable :=
  pcs.filter (fun p => p.1 != k) ++ [(k, v)]

/-- connection.go `SendCommand(command, expectResponse, timeout)`.
Pure model: `now` is the registration timestamp, `ev` the first event the
final `select` observes (only consulted on the expect-response path), and the
`List String` component collects the byte strings written to the serial port.
The serial write itself is modelled as always succeeding. -/
def sendCommand (st : TransportState) (command : String) (expectResponse : Bool)
    (timeout : Int) (now : Int) (ev : AwaitEvent) :
    TransportState × List String × SendOutcome :=
  if !(st.isConnected && st.portOpen) then
    (st, [], .err (.connection "not connected"))
  else
    let _timeout := if timeout = 0 then DefaultTimeout else timeout
    if !expectResponse then
      (st, [command ++ "\r\n"], .ok command)
    else
      let p := generateCommandID st
      let st1 := p.1
      let cmdID := p.2
      let tbl := tableInsert cmdID
        { commandID := cmdID, command := command, resultCh := none, timestamp := now }
        st1.pendingCommands
      let st2 := { st1 with pendingCommands := tbl }
      let taggedCmd := command ++ "#" ++ toString cmdID ++ "\r\n"
      let r := sendAwait st2 cmdID command ev
      (r.1, [taggedCmd], r.2)

/-! ## Button state (connection.go handleButtonData / GetButtonStates) -/

/-- The two button-tracking fields of `SerialTransport`. -/
structure ButtonState where
  buttonStates : Nat
  lastButtonMask : Nat
deriving DecidableEq, Repr

/-- connection.go `buttonNames`. -/
def buttonNames : List String := ["left", "right", "middle", "mouse4", "mouse5"]

/-- The body of the bit loop in `handleButtonData`: for a changed bit, set or
clear that bit of `buttonStates` according to the incoming byte and record the
callback invocation when the bit indexes a named button (`bit < 5`). -/
def buttonBitStep (byteVal changedBits : Nat) (acc : Nat × List (Nat × Bool))
    (bit : Nat) : Nat × List (Nat × Bool) :=
  if changedBits.testBit bit then
    let isPressed := byteVal.testBit bit
    let states :=
      if isPressed then acc.1 ||| (1 <<< bit)
      else Nat.ldiff acc.1 (1 <<< bit)
    (states, if bit < 5 then acc.2 ++ [(bit, isPressed)] else acc.2)
  else acc

/-- connection.go `handleButtonData(byteVal)`: processes a raw button-state
byte.  Returns the new state together with the list of callback invocations
`(bit, isPressed)` (the Go code fires the callback only for `bit < 5`, the
size of `buttonEnumMap`).  `s.buttonStates &= ^(1 << bit)` — AND with the
complement — is `Nat.ldiff` on the non-negative values involved. -/
def handleButtonData (byteVal : Nat) (bs : ButtonState) :
    ButtonState × List (Nat × Bool) :=
  if byteVal = bs.lastButtonMask then (bs, [])
  else
    let changedBits := byteVal ^^^ bs.lastButtonMask
    let r := (List.range 8).foldl (buttonBitStep byteVal changedBits)
      (bs.buttonStates, [])
    ({ buttonStates := r.1, lastButtonMask := byteVal }, r.2)

/-- connection.go `GetButtonStates`: the pressed state of each named button,
read from `buttonStates`. -/
def getButtonStates (bs : ButtonState) : List (String × Bool) :=
  buttonNames.enum.map (fun p => (p.2, bs.buttonStates &&& (1 <<< p.1) != 0))

/-- connection.go `GetButtonMask`: the raw `lastButtonMask`. -/
def getButtonMask (bs : ButtonState) : Nat := bs.lastButtonMask

/-! ## The stream demultiplexer (connection.go listen, per-byte switch) -/

/-- The per-byte state of the `listen` loop: the accumulation buffer
(`lineBuffer[:linePos]`, capacity 256), the `expectingTextMode` flag, the
previous byte (`-1` = none), and the transport's button state (consulted by
the bare-LF heuristic and updated by telegram bytes). -/
structure ListenState where
  lineBuffer : List Nat
  expectingTextMode : Bool
  lastByte : Int
  buttons : ButtonState
deriving DecidableEq, Repr

/-- The two stream events: a text line routed to `processPendingCommands`,
and a state-telegram byte passed to `handleButtonData`. -/
inductive StreamEvent where
  | textLine (content : String)
  | telegram (b : Nat)
deriving DecidableEq, Repr

/-- The 4-character prompt marker `">>> "` stripped by `parseResponseLine`. -/
def promptMarker : List Char := ['>', '>', '>', ' ']

/-- connection.go `parseResponseLine`: trim surrounding whitespace and strip
a leading 4-character prompt marker (re-trimming afterwards). -/
def parseResponseLine (line : List Nat) : String :=
  let str := trimChars (line.map Char.ofNat)
  if promptMarker.isPrefixOf str then String.mk (trimChars (str.drop 4))
  else String.mk str

/-- Line completion: `content := parseResponseLine(...)`, then
`processPendingCommands(content)` only when `content != ""`. -/
def routeEvents (buf : List Nat) : List StreamEvent :=
  let content := parseResponseLine buf
  if content = "" then [] else [.textLine content]

/-- One iteration of the per-byte `switch` in `listen`
(connection.go lines 494-575), producing the next state and the events
emitted for this byte.  The `st.lastByte = 13` test inside the bare-LF case
mirrors the Go code's inner `if lastByte == 0x0D` branch, unreachable there
because the first case already consumed CR+LF. -/
def processByte (st : ListenState) (b : Nat) : ListenState × List StreamEvent :=
  if st.lastByte = 13 ∧ b = 10 then
    -- Case 1: CR+LF completes a text line.
    let evs := if st.lineBuffer ≠ [] then routeEvents st.lineBuffer else []
    ({ st with lineBuffer := [], expectingTextMode := false, lastByte := (b : Int) }, evs)
  else if 32 ≤ b ∨ b = 9 then
    -- Case 2: printable ASCII or TAB accumulates.
    ({ st with expectingTextMode := true,
               lineBuffer :=
                 if st.lineBuffer.length < 256 then st.lineBuffer ++ [b]
                 else st.lineBuffer,
               lastByte := (b : Int) }, [])
  else if b = 13 then
    -- Case 3: lone CR.
    ({ st with expectingTextMode := st.expectingTextMode || !st.lineBuffer.isEmpty,
               lastByte := (b : Int) }, [])
  else if b = 10 then
    -- Case 4: bare LF — text terminator or button data?
    if st.buttons.lastButtonMask ≠ 0 ∨
       (0 ≤ st.lastByte ∧ st.lastByte < 32 ∧ st.lastByte ≠ 13) ∨
       (st.lineBuffer ≠ [] ∧ st.expectingTextMode = false) then
      ({ st with buttons := (handleButtonData b st.buttons).1,
                 expectingTextMode := false, lineBuffer := [], lastByte := (b : Int) },
       [.telegram b])
    else if st.lastByte = 13 then
      let evs := if st.lineBuffer ≠ [] then routeEvents st.lineBuffer else []
      ({ st with lineBuffer := [], expectingTextMode := false, lastByte := (b : Int) }, evs)
    else if st.lineBuffer ≠ [] ∧ st.expectingTextMode = true then
      ({ st with lineBuffer := [], expectingTextMode := false, lastByte := (b : Int) },
       routeEvents st.lineBuffer)
    else if st.expectingTextMode = true then
      ({ st with expectingTextMode := false, lastByte := (b : Int) }, [])
    else
      ({ st with buttons := (handleButtonData b st.buttons).1,
                 expectingTextMode := false, lineBuffer := [], lastByte := (b : Int) },
       [.telegram b])
  else
    -- Case 5: other control bytes are button data (an unresolved CR first).
    let bs1 :=
      if st.lastByte = 13 then (handleButtonData 13 st.buttons).1 else st.buttons
    let evs :=
      if st.lastByte = 13 then [StreamEvent.telegram 13, StreamEvent.telegram b]
      else [StreamEvent.telegram b]
    ({ st with buttons := (handleButtonData b bs1).1,
               expectingTextMode := false, lineBuffer := [], lastByte := (b : Int) }, evs)

/-! ## Mouse lock-state cache (mouse.go) -/

/-- mouse.go `lockInfo`. -/
structure LockInfo where
  lockCmd : String
  unlockCmd : String
  queryCmd : String
  bit : Nat
deriving DecidableEq, Repr

/-- mouse.go `lockTargets` map. -/
def lockTargets (name : String) : Option LockInfo :=
  if name = "LEFT" then
    some { lockCmd := "km.lock_ml(1)", unlockCmd := "km.lock_ml(0)", queryCmd := "km.lock_ml()", bit := 0 }
  else if name = "RIGHT" then
    some { lockCmd := "km.lock_mr(1)", unlockCmd := "km.lock_mr(0)", queryCmd := "km.lock_mr()", bit := 1 }
  else if name = "MIDDLE" then
    some { lockCmd := "km.lock_mm(1)", unlockCmd := "km.lock_mm(0)", queryCmd := "km.lock_mm()", bit := 2 }
  else if name = "MOUSE4" then
    some { lockCmd := "km.lock_ms1(1)", unlockCmd := "km.lock_ms1(0)", queryCmd := "km.lock_ms1()", bit := 3 }
  else if name = "MOUSE5" then
    some { lockCmd := "km.lock_ms2(1)", unlockCmd := "km.lock_ms2(0)", queryCmd := "km.lock_ms2()", bit := 4 }
  else if name = "X" then
    some { lockCmd := "km.lock_mx(1)", unlockCmd := "km.lock_mx(0)", queryCmd := "km.lock_mx()", bit := 5 }
  else if name = "Y" then
    some { lockCmd := "km.lock_my(1)", unlockCmd := "km.lock_my(0)", queryCmd := "km.lock_my()", bit := 6 }
  else none

/-- `MouseButton.String()` (a `MouseButton` is a Go `int`). -/
def mouseButtonString (b : Int) : String :=
  if b = 0 then "left"
  else if b = 1 then "right"
  else if b = 2 then "middle"
  else if b = 3 then "mouse4"
  else if b = 4 then "mouse5"
  else "unknown"

/-- The lock-cache fields of mouse.go `Mouse`. -/
structure MouseState where
  lockStatesCache : Nat
  cacheValid : Bool
deriving DecidableEq, Repr

/-- The `(bool, error)` return pair of `Mouse.IsLocked`. -/
inductive LockResult where
  | ok (locked : Bool)
  | err (e : MakcuError)
deriving DecidableEq, Repr

/-- mouse.go `Mouse.IsLocked(button)`.  `devResp` is the outcome of the one
`transport.SendCommand(info.queryCmd, true, 50*time.Millisecond)` round trip
(consulted only on the cache-miss path).  The middle component records each
issued transport request as `(command, expectResponse, timeout)`. -/
def isLocked (m : MouseState) (button : Int) (devResp : SendOutcome) :
    MouseState × List (String × Bool × Int) × LockResult :=
  let name := asciiUpper (mouseButtonString button)
  match lockTargets name with
  | none => (m, [], .err (.command ("unsupported lock target: " ++ mouseButtonString button)))
  | some info =>
    if m.cacheValid then
      (m, [], .ok (m.lockStatesCache &&& (1 <<< info.bit) != 0))
    else
      let queries := [(info.queryCmd, true, 50 * timeMillisecond)]
      match devResp with
      | .err e => (m, queries, .err e)
      | .ok resp =>
        let locked := asciiTrim resp == "1"
        let cache :=
          if locked then m.lockStatesCache ||| (1 <<< info.bit)
          else Nat.ldiff m.lockStatesCache (1 <<< info.bit)
        ({ m with lockStatesCache := cache }, queries, .ok locked)

/-- mouse.go `Mouse.InvalidateCache`. -/
def invalidateCache (m : MouseState) : MouseState := { m with cacheValid := false }

/-! ## Reconnection (connection.go attemptReconnect and the listen read loop) -/

/-- The connection-lifecycle state observed by `attemptReconnect` and the
read loop: the `isConnected` flag, the attempt counter, whether a live
serial port is open, and a count of successful `serial.Open` calls (to state
that no further attempt opens a port). -/
structure ConnState where
  connected : Bool
  reconnectAttempts : Nat
  portOpen : Bool
  opensCount : Nat
deriving DecidableEq, Repr

/-- How the environment answers one reconnection attempt: the device is not
found, `serial.Open` fails, the baud handshake fails after a successful open
(the port is closed again), or everything succeeds. -/
inductive ReconnectEnv where
  | deviceMissing
  | openFails
  | baudFails
  | ok
deriving DecidableEq, Repr

/-- connection.go `attemptReconnect`: gives up (storing `isConnected=false`)
once `reconnectAttempts >= maxReconnectAttempts`, otherwise increments the
counter, closes any existing port and retries; a fully successful attempt
reopens the port and resets the counter to 0. -/
def attemptReconnect (env : ReconnectEnv) (s : ConnState) : ConnState :=
  if maxReconnectAttempts ≤ s.reconnectAttempts then
    { s with connected := false }
  else
    let s1 := { s with reconnectAttempts := s.reconnectAttempts + 1, portOpen := false }
    match env with
    | .deviceMissing => s1
    | .openFails => s1
    | .baudFails => { s1 with opensCount := s1.opensCount + 1 }
    | .ok =>
        { s1 with portOpen := true, opensCount := s1.opensCount + 1,
                  reconnectAttempts := 0 }

/-- The environment of one read-loop iteration: whether the serial read
succeeds (given an open port), and how a reconnection attempt would fare if
one is made. -/
structure LoopEnv where
  readOk : Bool
  reconnectEnv : ReconnectEnv
deriving DecidableEq, Repr

/-- One iteration of the `listen` read loop with `autoReconnect` enabled,
restricted to its connection-supervision effect: a read on a closed port (or
a failing read) triggers `attemptReconnect`; a successful read leaves the
connection state alone (byte processing is modelled separately). -/
def listenStep (s : ConnState) (ev : LoopEnv) : ConnState :=
  if s.portOpen ∧ ev.readOk then s
  else attemptReconnect ev.reconnectEnv s

/-- The `listen` read loop, `for s.isConnected.Load()`: once `connected` is
false the loop has exited and nothing further happens. -/
def listenRun (s : ConnState) (evs : List LoopEnv) : ConnState :=
  evs.foldl (fun s ev => if s.connected then listenStep s ev else s) s

/-! ## Helper lemmas on the pending-table scan -/

lemma oldestAux_le_init (l : PendingTable) (m : Nat) : oldestAux l m ≤ m := by
  induction l generalizing m with
  | nil => exact Nat.le_refl m
  | cons q t ih =>
    show oldestAux t (if q.1 < m then q.1 else m) ≤ m
    refine Nat.le_trans (ih _) ?_
    split
    · exact Nat.le_of_lt (by assumption)
    · exact Nat.le_refl m

lemma oldestAux_le_mem (l : PendingTable) (m : Nat) :
    ∀ p ∈ l, oldestAux l m ≤ p.1 := by
  induction l generalizing m with
  | nil => intro p hp; cases hp
  | cons q t ih =>
    intro p hp
    rcases List.mem_cons.mp hp with h | h
    · subst h
      show oldestAux t (if p.1 < m then p.1 else m) ≤ p.1
      refine Nat.le_trans (oldestAux_le_init t _) ?_
      split
      · exact Nat.le_refl p.1
      · exact Nat.le_of_not_lt (by assumption)
    · exact ih _ p h

lemma oldestID_foldl_some (t : PendingTable) (m : Nat) :
    t.foldl
      (fun acc p =>
        match acc with
        | none => some p.1
        | some m => if p.1 < m then some p.1 else some m)
      (some m) = some (oldestAux t m) := by
  induction t generalizing m with
  | nil => rfl
  | cons q t ih =>
    simp only [List.foldl_cons, oldestAux]
    by_cases hlt : q.1 < m
    · simp only [if_pos hlt]
      exact ih q.1
    · simp only [if_neg hlt]
      exact ih m

lemma oldestID_cons (q : Nat × PendingCommand) (t : PendingTable) :
    oldestID (q :: t) = some (oldestAux t q.1) := by
  show t.foldl _ (some q.1) = _
  exact oldestID_foldl_some t q.1

lemma oldestID_le (pcs : PendingTable) (m : Nat) (h : oldestID pcs = some m) :
    ∀ p ∈ pcs, m ≤ p.1 := by
  cases pcs with
  | nil => cases h
  | cons q t =>
    rw [oldestID_cons] at h
    intro p hp
    rcases List.mem_cons.mp hp with h1 | h1
    · subst h1
      exact Option.some.inj h ▸ oldestAux_le_init t p.1
    · exact Option.some.inj h ▸ oldestAux_le_mem t q.1 p h1

lemma oldestID_ne_nil (pcs : PendingTable) (m : Nat) (h : oldestID pcs = some m) :
    pcs ≠ [] := by
  intro hnil
  subst hnil
  cases h

lemma lookup_filter_ne (pcs : PendingTable) (oid id : Nat) (h : id ≠ oid) :
    (pcs.filter (fun p => p.1 != oid)).lookup id = pcs.lookup id := by
  induction pcs with
  | nil => rfl
  | cons q t ih =>
    obtain ⟨k, v⟩ := q
    simp only [List.filter_cons]
    by_cases hq : k = oid
    · have h1 : (k != oid) = false := by simp [hq]
      rw [h1]
      simp only [Bool.false_eq_true, if_false, ih]
      have h2 : (id == k) = false := by
        rw [hq]; exact beq_eq_false_iff_ne.mpr h
      simp only [List.lookup, h2]
    · have h1 : (k != oid) = true := by simp [hq]
      rw [h1]
      simp only [if_true, List.lookup]
      cases hqq : (id == k) with
      | true => rfl
      | false => exact ih

/-! ## Claim theorems: the command correlator -/

/-- C1: `processPendingCommands(content)` is a no-op when the pending table
is empty or `content` is empty; otherwise, provided `content` is not an exact
echo of the oldest command's text, the entry with the numerically lowest id
is the one resolved: `content` is delivered into its result slot by a
non-blocking send (dropped if the slot is already full), that entry is removed
from the table, and every other entry is unchanged (same lookup result).  The
target of the routing is `oldestID pcs`, determined by the table alone, so any
id encoded inside `content` is never used for routing. -/
theorem processPendingCommands_resolves_oldest (content : String) (pcs : PendingTable) :
    ((content = "" ∨ pcs = []) → processPendingCommands content pcs = (pcs, none)) ∧
    (∀ oid pending, content ≠ "" →
      oldestID pcs = some oid → pcs.lookup oid = some pending →
      (∀ p ∈ pcs, oid ≤ p.1) ∧
      (content ≠ pending.command →
        processPendingCommands content pcs =
          (pcs.filter (fun p => p.1 != oid),
           some { pending with resultCh := trySendResult pending.resultCh content }) ∧
        (pending.resultCh = none → trySendResult pending.resultCh content = some content) ∧
        (∀ x, pending.resultCh = some x → trySendResult pending.resultCh content = some x) ∧
        (∀ id, id ≠ oid →
          (pcs.filter (fun p => p.1 != oid)).lookup id = pcs.lookup id))) := by
  constructor
  · rintro (h | h)
    · simp [processPendingCommands, h]
    · subst h
      simp [processPendingCommands]
  · intro oid pending hc hold hlook
    refine ⟨oldestID_le pcs oid hold, ?_⟩
    intro hne
    have hnil : pcs ≠ [] := oldestID_ne_nil pcs oid hold
    have hemp : pcs.isEmpty = false := by
      cases pcs with
      | nil => exact absurd rfl hnil
      | cons q t => rfl
    refine ⟨?_, ?_, ?_, ?_⟩
    · simp only [processPendingCommands, if_neg hc, hemp, Bool.false_eq_true, if_false,
        hold, hlook, if_neg hne]
    · intro hch; simp [trySendResult, hch]
    · intro x hch; simp [trySendResult, hch]
    · intro id hid
      exact lookup_filter_ne pcs oid id hid

/-- Witness for C1 on a concrete table: ids 7 and 3 pending, content "done"
resolves id 3. -/
theorem processPendingCommands_resolves_oldest_witness :
    processPendingCommands "done"
        [(7, ⟨7, "km.a()", none, 0⟩), (3, ⟨3, "km.b()", none, 0⟩)] =
      ([(7, ⟨7, "km.a()", none, 0⟩)], some ⟨3, "km.b()", some "done", 0⟩) ∧
    (3 : Nat) ≤ 7 := by
  have h := processPendingCommands_resolves_oldest "done"
    [(7, ⟨7, "km.a()", none, 0⟩), (3, ⟨3, "km.b()", none, 0⟩)]
  have h2 := (h.2 3 ⟨3, "km.b()", none, 0⟩ (by decide) (by decide) (by decide))
  refine ⟨?_, by decide⟩
  have h3 := (h2.2 (by decide)).1
  exact h3

/-- C5: a response line exactly equal to the oldest pending command's text is
a device echo: the table is returned unchanged and nothing is resolved (no
result slot receives a value), and a subsequent line that differs from that
command text (and is non-empty, as every routed line is) resolves that same
oldest entry. -/
theorem echo_discarded_then_next_resolves (pcs : PendingTable) (oid : Nat)
    (pending : PendingCommand) (c2 : String)
    (hold : oldestID pcs = some oid) (hlook : pcs.lookup oid = some pending)
    (hc2ne : c2 ≠ "") (hc2diff : c2 ≠ pending.command) :
    processPendingCommands pending.command pcs = (pcs, none) ∧
    processPendingCommands c2 pcs =
      (pcs.filter (fun p => p.1 != oid),
       some { pending with resultCh := trySendResult pending.resultCh c2 }) := by
  have hemp : pcs.isEmpty = false := by
    cases pcs with
    | nil => cases hold
    | cons q t => rfl
  constructor
  · by_cases hcmd : pending.command = ""
    · simp [processPendingCommands, hcmd]
    · simp [processPendingCommands, if_neg hcmd, hemp, hold, hlook]
  · simp only [processPendingCommands, if_neg hc2ne, hemp, Bool.false_eq_true, if_false,
      hold, hlook, if_neg hc2diff]

/-- Witness for C5: with commands "km.a()" (id 7) and "km.b()" (id 3)
pending, the echo "km.b()" is discarded and "OK" then resolves id 3. -/
theorem echo_discarded_then_next_resolves_witness :
    processPendingCommands "km.b()"
        [(7, ⟨7, "km.a()", none, 0⟩), (3, ⟨3, "km.b()", none, 0⟩)] =
      ([(7, ⟨7, "km.a()", none, 0⟩), (3, ⟨3, "km.b()", none, 0⟩)], none) ∧
    processPendingCommands "OK"
        [(7, ⟨7, "km.a()", none, 0⟩), (3, ⟨3, "km.b()", none, 0⟩)] =
      ([(7, ⟨7, "km.a()", none, 0⟩)], some ⟨3, "km.b()", some "OK", 0⟩) := by
  have h := echo_discarded_then_next_resolves
    [(7, ⟨7, "km.a()", none, 0⟩), (3, ⟨3, "km.b()", none, 0⟩)] 3
    ⟨3, "km.b()", none, 0⟩ "OK" (by decide) (by decide) (by decide) (by decide)
  exact h

/-- C6: `cleanupTimedOutCommands(now)` removes exactly the pending entries
strictly older than 1 second (`now - timestamp > 1s`); every entry at or
under the threshold is kept unchanged (its result slot included), and the
cleanup delivers nothing: the surviving entries are literally the kept input
entries.  A caller still blocked in `SendCommand` on a reaped command wakes
on the timer arm of its select and observes a timeout error, which is not a
resolved value. -/
theorem cleanup_reaps_stale (now : Int) (pcs : PendingTable) :
    (∀ p ∈ pcs, timeSecond < now - p.2.timestamp →
      p ∉ cleanupTimedOutCommands now pcs) ∧
    (∀ p ∈ pcs, now - p.2.timestamp ≤ timeSecond →
      p ∈ cleanupTimedOutCommands now pcs) ∧
    (∀ p ∈ cleanupTimedOutCommands now pcs,
      p ∈ pcs ∧ now - p.2.timestamp ≤ timeSecond) ∧
    (∀ st cmdID command,
      (sendAwait st cmdID command .timerExpired).2 =
        .err (.timeout ("command timed out: " ++ command)) ∧
      ∀ s, SendOutcome.err (.timeout ("command timed out: " ++ command)) ≠ .ok s) := by
  refine ⟨?_, ?_, ?_, ?_⟩
  · intro p hp hstale hmem
    have := List.of_mem_filter hmem
    simp only [Bool.not_eq_true', decide_eq_false_iff_not, not_lt] at this
    exact absurd hstale (not_lt.mpr this)
  · intro p hp hfresh
    refine List.mem_filter.mpr ⟨hp, ?_⟩
    simp only [Bool.not_eq_true', decide_eq_false_iff_not, not_lt]
    exact hfresh
  · intro p hp
    have h1 := List.mem_of_mem_filter hp
    have h2 := List.of_mem_filter hp
    simp only [Bool.not_eq_true', decide_eq_false_iff_not, not_lt] at h2
    exact ⟨h1, h2⟩
  · intro st cmdID command
    exact ⟨rfl, fun s h => by cases h⟩

/-- Witness for C6: at `now` = 2 s, an entry stamped 0.5 s is reaped while an
entry stamped 1.5 s survives. -/
theorem cleanup_reaps_stale_witness :
    (1, (⟨1, "old", none, 500000000⟩ : PendingCommand)) ∉
      cleanupTimedOutCommands 2000000000
        [(1, ⟨1, "old", none, 500000000⟩), (2, ⟨2, "fresh", none, 1500000000⟩)] ∧
    (2, (⟨2, "fresh", none, 1500000000⟩ : PendingCommand)) ∈
      cleanupTimedOutCommands 2000000000
        [(1, ⟨1, "old", none, 500000000⟩), (2, ⟨2, "fresh", none, 1500000000⟩)] := by
  have h := cleanup_reaps_stale 2000000000
    [(1, ⟨1, "old", none, 500000000⟩), (2, ⟨2, "fresh", none, 1500000000⟩)]
  exact ⟨h.1 _ (by decide) (by decide), h.2.1 _ (by decide) (by decide)⟩

/-! ## Claim theorems: SendCommand -/

/-- C7: `SendCommand` invoked while the transport is disconnected (the
`isConnected` flag false or no open serial port) returns immediately with a
connection-kind error, writes nothing to the channel, adds no entry to the
pending table and leaves the whole state unchanged, for every command string
and both values of `expectResponse`; the connection error kind is distinct
from the timeout and command kinds. -/
theorem sendCommand_disconnected_fails (st : TransportState) (command : String)
    (expectResponse : Bool) (timeout now : Int) (ev : AwaitEvent)
    (h : st.isConnected = false ∨ st.portOpen = false) :
    sendCommand st command expectResponse timeout now ev =
      (st, [], .err (.connection "not connected")) ∧
    (∀ m, (MakcuError.connection "not connected" ≠ .timeout m) ∧
          (MakcuError.connection "not connected" ≠ .command m)) := by
  constructor
  · have hc : (st.isConnected && st.portOpen) = false := by
      rcases h with h | h <;> simp [h]
    simp [sendCommand, hc]
  · intro m
    exact ⟨by simp, by simp⟩

/-- Witness for C7: disconnected transport, response-expecting command. -/
theorem sendCommand_disconnected_fails_witness :
    sendCommand ⟨false, true, 7, []⟩ "km.version()" true 0 0 .timerExpired =
      (⟨false, true, 7, []⟩, [], .err (.connection "not connected")) :=
  (sendCommand_disconnected_fails ⟨false, true, 7, []⟩ "km.version()" true 0 0
    .timerExpired (Or.inl rfl)).1

/-- C8: a command sent with `expectResponse = false` while connected writes
exactly `command + "\r\n"` to the channel and returns `(command, nil)`
without consulting any await event (the same result for every `ev`, i.e. no
blocking on a response); the returned state is the input state, so the
pending table (size and every entry) and the command-id counter are
unchanged. -/
theorem sendCommand_fire_and_forget (st : TransportState) (command : String)
    (timeout now : Int) (ev : AwaitEvent)
    (hconn : st.isConnected = true) (hport : st.portOpen = true) :
    sendCommand st command false timeout now ev =
      (st, [command ++ "\r\n"], .ok command) ∧
    (sendCommand st command false timeout now ev).1.pendingCommands =
      st.pendingCommands ∧
    (sendCommand st command false timeout now ev).1.commandCounter =
      st.commandCounter := by
  have heq : sendCommand st command false timeout now ev =
      (st, [command ++ "\r\n"], .ok command) := by
    simp [sendCommand, hconn, hport]
  exact ⟨heq, by rw [heq], by rw [heq]⟩

/-- Witness for C8: a fire-and-forget move command on a connected transport
with one unrelated command pending. -/
theorem sendCommand_fire_and_forget_witness :
    sendCommand ⟨true, true, 3, [(2, ⟨2, "km.a()", none, 0⟩)]⟩ "km.move(1,2)"
        false 0 0 .stopSignal =
      (⟨true, true, 3, [(2, ⟨2, "km.a()", none, 0⟩)]⟩,
       ["km.move(1,2)" ++ "\r\n"], .ok "km.move(1,2)") :=
  (sendCommand_fire_and_forget ⟨true, true, 3, [(2, ⟨2, "km.a()", none, 0⟩)]⟩
    "km.move(1,2)" 0 0 .stopSignal rfl rfl).1

/-! ## Claim theorems: response-suffix stripping (C2) -/

lemma takeUntilHash_of_not_mem (l : List Char) (h : '#' ∉ l) :
    takeUntilHash l = l := by
  induction l with
  | nil => rfl
  | cons c cs ih =>
    have hc : c ≠ '#' := fun hh => h (hh ▸ List.mem_cons_self c cs)
    simp only [takeUntilHash, if_neg hc]
    rw [ih (fun hm => h (List.mem_cons_of_mem c hm))]

lemma takeUntilHash_append (u v : List Char) (h : '#' ∉ u) :
    takeUntilHash (u ++ '#' :: v) = u := by
  induction u with
  | nil => simp [takeUntilHash]
  | cons c cs ih =>
    have hc : c ≠ '#' := fun hh => h (hh ▸ List.mem_cons_self c cs)
    rw [List.cons_append]
    show (if c = '#' then [] else c :: takeUntilHash (cs ++ '#' :: v)) = c :: cs
    rw [if_neg hc, ih (fun hm => h (List.mem_cons_of_mem c hm))]

/-- C2 counterexample: the claim says a matched response with no trailing
"#<id>" suffix is returned unchanged, but the code truncates at the *first*
`'#'` wherever it occurs: for the received text "a#b" — which has no
trailing id suffix, as `specHasTrailingIdSuffix` (the claim's rule) attests —
`SendCommand` returns "a", not "a#b". -/
theorem sendCommand_strip_counterexample :
    specHasTrailingIdSuffix "a#b" = false ∧
    specStripTrailingIdSuffix "a#b" = "a#b" ∧
    stripResponseTag "a#b" = "a" ∧
    (sendCommand ⟨true, true, 0, []⟩ "cmd" true 0 0 (.received "a#b")).2.2 =
      .ok "a" ∧
    SendOutcome.ok "a" ≠ .ok "a#b" := by
  refine ⟨rfl, rfl, rfl, rfl, by decide⟩

/-- C2 amended: on the response path, `SendCommand` returns the matched text
truncated at its first `'#'` character: for `t = u ++ "#" ++ v` with `u`
free of `'#'` the result is exactly `u` (so when the only `'#'` of `t`
introduces the trailing id suffix, exactly that suffix is stripped), and a
text with no `'#'` at all is returned unchanged. -/
theorem sendCommand_strips_at_first_hash (st : TransportState) (command : String)
    (timeout now : Int) (u v : List Char)
    (hconn : st.isConnected = true) (hport : st.portOpen = true)
    (hu : '#' ∉ u) :
    (sendCommand st command true timeout now
        (.received (String.mk (u ++ '#' :: v)))).2.2 = .ok (String.mk u) ∧
    (∀ t : String, '#' ∉ t.data →
      (sendCommand st command true timeout now (.received t)).2.2 = .ok t) := by
  constructor
  · simp [sendCommand, hconn, hport, sendAwait, stripResponseTag,
      takeUntilHash_append u v hu]
  · intro t ht
    simp [sendCommand, hconn, hport, sendAwait, stripResponseTag,
      takeUntilHash_of_not_mem t.data ht]

/-- Witness for C2 amended: "ok#42" is returned as "ok". -/
theorem sendCommand_strips_at_first_hash_witness :
    (sendCommand ⟨true, true, 0, []⟩ "cmd" true 0 0
        (.received (String.mk (['o', 'k'] ++ '#' :: ['4', '2'])))).2.2 =
      .ok (String.mk ['o', 'k']) :=
  (sendCommand_strips_at_first_hash ⟨true, true, 0, []⟩ "cmd" 0 0
    ['o', 'k'] ['4', '2'] rfl rfl (by decide)).1

/-! ## Claim theorems: the lock-state cache (C3) -/

/-- C3 counterexample: the claim says a cache-miss `queryLock` marks the
cache valid, so that an immediately following `queryLock` with no intervening
invalidation is served from the cache without another round trip.  On the
code, querying LEFT on an invalid cache answers `.ok true` from the device
response "1" and updates the cache bit — but leaves `cacheValid = false`, and
the second call issues a second response-expecting query (one more round
trip instead of the claimed zero). -/
theorem isLocked_marks_valid_counterexample :
    (isLocked ⟨0, false⟩ 0 (.ok "1")).2.2 = .ok true ∧
    (isLocked ⟨0, false⟩ 0 (.ok "1")).2.1 =
      [("km.lock_ml()", true, 50 * timeMillisecond)] ∧
    (isLocked ⟨0, false⟩ 0 (.ok "1")).1.cacheValid = false ∧
    (isLocked (isLocked ⟨0, false⟩ 0 (.ok "1")).1 0 (.ok "1")).2.1 =
      [("km.lock_ml()", true, 50 * timeMillisecond)] := by
  refine ⟨?_, ?_, ?_, ?_⟩ <;> rfl

/-- C3 amended: `Mouse.IsLocked` on an invalid cache issues exactly one
response-expecting query command (the target's `queryCmd`, with a 50 ms
timeout); on a successful response it interprets the trimmed text being "1"
as locked, updates the cache bit for the target and returns that result, but
it does *not* mark the cache valid — so a second call immediately after,
with no intervening invalidation, performs another device round trip, as
does a call right after `invalidate()`; a transport error is propagated with
no cache change. -/
theorem isLocked_query_leaves_cache_invalid (m : MouseState) (button : Int)
    (info : LockInfo) (resp : String) (e : MakcuError) (devResp2 : SendOutcome)
    (hvalid : m.cacheValid = false)
    (hinfo : lockTargets (asciiUpper (mouseButtonString button)) = some info) :
    isLocked m button (.ok resp) =
      ({ m with lockStatesCache :=
          if asciiTrim resp == "1" then m.lockStatesCache ||| (1 <<< info.bit)
          else Nat.ldiff m.lockStatesCache (1 <<< info.bit) },
       [(info.queryCmd, true, 50 * timeMillisecond)],
       .ok (asciiTrim resp == "1")) ∧
    isLocked m button (.err e) =
      (m, [(info.queryCmd, true, 50 * timeMillisecond)], .err e) ∧
    (isLocked m button (.ok resp)).1.cacheValid = false ∧
    (isLocked (isLocked m button (.ok resp)).1 button devResp2).2.1 =
      [(info.queryCmd, true, 50 * timeMillisecond)] ∧
    (isLocked (invalidateCache m) button devResp2).2.1 =
      [(info.queryCmd, true, 50 * timeMillisecond)] := by
  have hok : isLocked m button (.ok resp) =
      ({ m with lockStatesCache :=
          if asciiTrim resp == "1" then m.lockStatesCache ||| (1 <<< info.bit)
          else Nat.ldiff m.lockStatesCache (1 <<< info.bit) },
       [(info.queryCmd, true, 50 * timeMillisecond)],
       .ok (asciiTrim resp == "1")) := by
    simp only [isLocked, hinfo, hvalid]
    cases hr : asciiTrim resp == "1" <;> simp [hr]
  refine ⟨hok, ?_, ?_, ?_, ?_⟩
  · simp only [isLocked, hinfo, hvalid]
    simp
  · rw [hok]
    exact hvalid
  · rw [hok]
    cases devResp2 with
    | ok r2 =>
      simp only [isLocked, hinfo, hvalid]
      cases hr : asciiTrim r2 == "1" <;> simp [hr]
    | err e2 =>
      simp only [isLocked, hinfo, hvalid]
      simp
  · cases devResp2 with
    | ok r2 =>
      simp only [isLocked, invalidateCache, hinfo]
      cases hr : asciiTrim r2 == "1" <;> simp [hr]
    | err e2 =>
      simp only [isLocked, invalidateCache, hinfo]
      simp

/-- Witness for C3 amended: querying LEFT with response " 1 " on an invalid
cache. -/
theorem isLocked_query_leaves_cache_invalid_witness :
    isLocked ⟨0, false⟩ 0 (.ok " 1 ") =
      (⟨(0 : Nat) ||| (1 <<< 0), false⟩,
       [("km.lock_ml()", true, 50 * timeMillisecond)], .ok true) := by
  have h := (isLocked_query_leaves_cache_invalid ⟨0, false⟩ 0
    ⟨"km.lock_ml(1)", "km.lock_ml(0)", "km.lock_ml()", 0⟩ " 1 "
    (.timeout "t") (.ok "1") rfl (by decide)).1
  rw [h]
  rfl

/-! ## Claim theorems: bounded reconnection (C9) -/

lemma attemptReconnect_fail (env : ReconnectEnv) (s : ConnState)
    (henv : env ≠ .ok) (h : s.reconnectAttempts < maxReconnectAttempts) :
    (attemptReconnect env s).connected = s.connected ∧
    (attemptReconnect env s).reconnectAttempts = s.reconnectAttempts + 1 ∧
    (attemptReconnect env s).portOpen = false := by
  have hle : ¬ maxReconnectAttempts ≤ s.reconnectAttempts := Nat.not_le.mpr h
  cases env with
  | deviceMissing => simp [attemptReconnect, hle]
  | openFails => simp [attemptReconnect, hle]
  | baudFails => simp [attemptReconnect, hle]
  | ok => exact absurd rfl henv

lemma attemptReconnect_exhausted (env : ReconnectEnv) (s : ConnState)
    (h : maxReconnectAttempts ≤ s.reconnectAttempts) :
    attemptReconnect env s = { s with connected := false } := by
  simp [attemptReconnect, h]

lemma listenRun_halted (s : ConnState) (evs : List LoopEnv)
    (h : s.connected = false) : listenRun s evs = s := by
  induction evs with
  | nil => rfl
  | cons ev rest ih =>
    show List.foldl _ (if s.connected then listenStep s ev else s) rest = s
    rw [h]
    simp only [Bool.false_eq_true, if_false]
    exact ih

lemma listenRun_from_exhausted (s : ConnState) (evs : List LoopEnv)
    (h3 : maxReconnectAttempts ≤ s.reconnectAttempts) (hp : s.portOpen = false) :
    (listenRun s evs).opensCount = s.opensCount ∧
    (evs ≠ [] → (listenRun s evs).connected = false) := by
  cases evs with
  | nil => exact ⟨rfl, fun h => absurd rfl h⟩
  | cons ev rest =>
    cases hc : s.connected with
    | false =>
      rw [listenRun_halted s (ev :: rest) hc]
      exact ⟨rfl, fun _ => hc⟩
    | true =>
      have hstep : listenStep s ev = { s with connected := false } := by
        have hcond : ¬(s.portOpen ∧ ev.readOk = true) := by
          rw [hp]; rintro ⟨hh, -⟩; cases hh
        rw [listenStep, if_neg hcond]
        exact attemptReconnect_exhausted ev.reconnectEnv s h3
      have hrun : listenRun s (ev :: rest) =
          listenRun { s with connected := false } rest := by
        show List.foldl _ (if s.connected then listenStep s ev else s) rest = _
        rw [hc]
        simp only [if_true, hstep]
        rfl
      rw [hrun, listenRun_halted _ rest rfl]
      exact ⟨rfl, fun _ => rfl⟩

/-- C9: starting from a freshly connected state (attempt counter 0), three
consecutive failed `attemptReconnect` calls leave the counter at 3 with the
port closed; from that point, however the environment behaves, the read loop
never opens another port (`opensCount` stays put — the guard branch of
`attemptReconnect` returns before any `serial.Open`), and as soon as the
loop takes one more step (its next read on the closed port necessarily
errors) the state transitions to Disconnected and the loop halts, until an
explicit `Connect` resets the state.  A successful attempt (made while
attempts remain) resets the attempt counter to 0. -/
theorem reconnect_gives_up_after_three (s0 : ConnState) (e1 e2 e3 : ReconnectEnv)
    (hc : s0.connected = true) (ha : s0.reconnectAttempts = 0)
    (h1 : e1 ≠ .ok) (h2 : e2 ≠ .ok) (h3 : e3 ≠ .ok) :
    (attemptReconnect e3 (attemptReconnect e2 (attemptReconnect e1 s0))).reconnectAttempts = 3 ∧
    (attemptReconnect e3 (attemptReconnect e2 (attemptReconnect e1 s0))).portOpen = false ∧
    (attemptReconnect e3 (attemptReconnect e2 (attemptReconnect e1 s0))).connected = true ∧
    (∀ evs : List LoopEnv,
      (listenRun (attemptReconnect e3 (attemptReconnect e2 (attemptReconnect e1 s0))) evs).opensCount =
        (attemptReconnect e3 (attemptReconnect e2 (attemptReconnect e1 s0))).opensCount ∧
      (evs ≠ [] →
        (listenRun (attemptReconnect e3 (attemptReconnect e2 (attemptReconnect e1 s0))) evs).connected =
          false)) ∧
    (∀ s : ConnState, s.reconnectAttempts < maxReconnectAttempts →
      (attemptReconnect .ok s).reconnectAttempts = 0) := by
  have f1 := attemptReconnect_fail e1 s0 h1 (by rw [ha]; decide)
  have f2 := attemptReconnect_fail e2 (attemptReconnect e1 s0) h2
    (by rw [f1.2.1, ha]; decide)
  have f3 := attemptReconnect_fail e3 (attemptReconnect e2 (attemptReconnect e1 s0)) h3
    (by rw [f2.2.1, f1.2.1, ha]; decide)
  have hatt : (attemptReconnect e3 (attemptReconnect e2 (attemptReconnect e1 s0))).reconnectAttempts = 3 := by
    rw [f3.2.1, f2.2.1, f1.2.1, ha]
  have hcon : (attemptReconnect e3 (attemptReconnect e2 (attemptReconnect e1 s0))).connected = true := by
    rw [f3.1, f2.1, f1.1, hc]
  refine ⟨hatt, f3.2.2, hcon, ?_, ?_⟩
  · intro evs
    exact listenRun_from_exhausted _ evs (by rw [hatt]; decide) f3.2.2
  · intro s hs
    have hle : ¬ maxReconnectAttempts ≤ s.reconnectAttempts := Nat.not_le.mpr hs
    simp [attemptReconnect, hle]

/-- Witness for C9: three device-missing failures from a fresh connected
state, then a read error and two further loop iterations. -/
theorem reconnect_gives_up_after_three_witness :
    (attemptReconnect .deviceMissing (attemptReconnect .deviceMissing
        (attemptReconnect .deviceMissing ⟨true, 0, true, 1⟩))).reconnectAttempts = 3 ∧
    (listenRun (attemptReconnect .deviceMissing (attemptReconnect .deviceMissing
        (attemptReconnect .deviceMissing ⟨true, 0, true, 1⟩)))
        [⟨false, .ok⟩, ⟨true, .ok⟩]).opensCount =
      (attemptReconnect .deviceMissing (attemptReconnect .deviceMissing
        (attemptReconnect .deviceMissing ⟨true, 0, true, 1⟩))).opensCount ∧
    (listenRun (attemptReconnect .deviceMissing (attemptReconnect .deviceMissing
        (attemptReconnect .deviceMissing ⟨true, 0, true, 1⟩)))
        [⟨false, .ok⟩, ⟨true, .ok⟩]).connected = false := by
  have h := reconnect_gives_up_after_three ⟨true, 0, true, 1⟩
    .deviceMissing .deviceMissing .deviceMissing rfl rfl
    (by decide) (by decide) (by decide)
  exact ⟨h.1, (h.2.2.2.1 [⟨false, .ok⟩, ⟨true, .ok⟩]).1,
    (h.2.2.2.1 [⟨false, .ok⟩, ⟨true, .ok⟩]).2 (by decide)⟩

/-! ## Claim theorems: button-state invariant (C10) -/

lemma buttonBitStep_fst_testBit (v c : Nat) (acc : Nat × List (Nat × Bool))
    (bit j : Nat) :
    ((buttonBitStep v c acc bit).1).testBit j =
      if j = bit ∧ c.testBit bit then v.testBit bit else acc.1.testBit j := by
  unfold buttonBitStep
  by_cases hcb : c.testBit bit
  · simp only [hcb, if_true, and_true]
    by_cases hj : j = bit
    · subst hj
      by_cases hv : v.testBit j
      · simp [hv, Nat.testBit_lor, Nat.one_shiftLeft, Nat.testBit_two_pow_self]
      · simp [hv, Nat.testBit_ldiff, Nat.one_shiftLeft, Nat.testBit_two_pow_self]
    · by_cases hv : v.testBit bit
      · simp [hv, hj, Nat.testBit_lor, Nat.one_shiftLeft,
          Nat.testBit_two_pow_of_ne (fun hh => hj hh.symm)]
      · simp [hv, hj, Nat.testBit_ldiff, Nat.one_shiftLeft,
          Nat.testBit_two_pow_of_ne (fun hh => hj hh.symm)]
  · simp [hcb]

lemma buttonFold_fst_testBit (v c : Nat) (l : List Nat)
    (acc : Nat × List (Nat × Bool)) (j : Nat) :
    ((l.foldl (buttonBitStep v c) acc).1).testBit j =
      if j ∈ l ∧ c.testBit j then v.testBit j else acc.1.testBit j := by
  induction l generalizing acc with
  | nil => simp
  | cons b t ih =>
    simp only [List.foldl_cons, ih, buttonBitStep_fst_testBit]
    by_cases hcj : c.testBit j
    · by_cases hmem : j ∈ t
      · simp [hmem, hcj]
      · by_cases hjb : j = b
        · subst hjb
          simp [hcj, hmem]
        · simp [hmem, hjb, hcj]
    · by_cases hjb : j = b
      · subst hjb
        simp [hcj]
      · simp [hjb, hcj]

lemma handleButtonData_states (bs : ButtonState) (v : Nat) (hv : v < 256)
    (hm : bs.lastButtonMask < 256) (hinv : bs.buttonStates = bs.lastButtonMask) :
    (handleButtonData v bs).1 = ⟨v, v⟩ := by
  unfold handleButtonData
  by_cases he : v = bs.lastButtonMask
  · simp only [if_pos he]
    show bs = _
    cases bs with
    | mk st mask =>
      simp only at hinv he
      rw [hinv, he]
  · simp only [if_neg he]
    show ButtonState.mk _ v = ⟨v, v⟩
    have hstates :
        ((List.range 8).foldl (buttonBitStep v (v ^^^ bs.lastButtonMask))
          (bs.buttonStates, ([] : List (Nat × Bool)))).1 = v := by
      apply Nat.eq_of_testBit_eq
      intro j
      rw [buttonFold_fst_testBit]
      by_cases hj : j < 8
      · have hjmem : j ∈ List.range 8 := List.mem_range.mpr hj
        by_cases hx : (v ^^^ bs.lastButtonMask).testBit j
        · simp [hjmem, hx]
        · have hx2 : (v ^^^ bs.lastButtonMask).testBit j = false := by
            rwa [Bool.not_eq_true] at hx
          simp only [hjmem, hx2, Bool.false_eq_true, and_false, true_and, if_false, hinv]
          have hxor := Nat.testBit_xor v bs.lastButtonMask j
          rw [hx2] at hxor
          cases hvj : v.testBit j <;> cases hmj : bs.lastButtonMask.testBit j <;>
            simp [hvj, hmj] at hxor ⊢
      · have hjmem : j ∉ List.range 8 := fun hh => hj (List.mem_range.mp hh)
        have h2j : (256 : Nat) ≤ 2 ^ j := by
          calc (256 : Nat) = 2 ^ 8 := rfl
          _ ≤ 2 ^ j := Nat.pow_le_pow_right (by decide) (Nat.le_of_not_lt hj)
        have hvj : v.testBit j = false :=
          Nat.testBit_eq_false_of_lt (lt_of_lt_of_le hv h2j)
        have hmj : bs.lastButtonMask.testBit j = false :=
          Nat.testBit_eq_false_of_lt (lt_of_lt_of_le hm h2j)
        simp [hjmem, hinv, hmj, hvj]
    rw [hstates]

lemma handleFold_invariant (l : List Nat) (bs : ButtonState)
    (hl : ∀ v ∈ l, v < 256) (hm : bs.lastButtonMask < 256)
    (hinv : bs.buttonStates = bs.lastButtonMask) :
    (l.foldl (fun bs v => (handleButtonData v bs).1) bs).buttonStates =
      (l.foldl (fun bs v => (handleButtonData v bs).1) bs).lastButtonMask ∧
    (l.foldl (fun bs v => (handleButtonData v bs).1) bs).lastButtonMask < 256 := by
  induction l generalizing bs with
  | nil => exact ⟨hinv, hm⟩
  | cons v t ih =>
    have hv : v < 256 := hl v (List.mem_cons_self v t)
    have hstep : (handleButtonData v bs).1 = ⟨v, v⟩ :=
      handleButtonData_states bs v hv hm hinv
    simp only [List.foldl_cons, hstep]
    exact ih ⟨v, v⟩ (fun w hw => hl w (List.mem_cons_of_mem v hw)) hv rfl

/-- C10: starting from the initial state (both fields 0), after any sequence
of telegram bytes fed to `handleButtonData` the transport's `buttonStates`
bitmask equals its `lastButtonMask` in every bit position; moreover one call
on a state satisfying the invariant copies each changed bit of the telegram
byte into `buttonStates` and installs the byte as the new `lastButtonMask`,
yielding exactly `⟨v, v⟩` — so `GetButtonStates` and `GetButtonMask` always
describe the same, most recent telegram. -/
theorem buttonStates_eq_lastButtonMask (l : List Nat) (hl : ∀ v ∈ l, v < 256) :
    (∀ (bs : ButtonState) (v : Nat), v < 256 → bs.lastButtonMask < 256 →
      bs.buttonStates = bs.lastButtonMask → (handleButtonData v bs).1 = ⟨v, v⟩) ∧
    (l.foldl (fun bs v => (handleButtonData v bs).1) ⟨0, 0⟩).buttonStates =
      (l.foldl (fun bs v => (handleButtonData v bs).1) ⟨0, 0⟩).lastButtonMask ∧
    getButtonStates (l.foldl (fun bs v => (handleButtonData v bs).1) ⟨0, 0⟩) =
      buttonNames.enum.map (fun p =>
        (p.2, getButtonMask (l.foldl (fun bs v => (handleButtonData v bs).1) ⟨0, 0⟩) &&&
          (1 <<< p.1) != 0)) := by
  have hmain := handleFold_invariant l ⟨0, 0⟩ hl (by decide) rfl
  refine ⟨fun bs v hv hm hinv => handleButtonData_states bs v hv hm hinv,
    hmain.1, ?_⟩
  unfold getButtonStates getButtonMask
  rw [hmain.1]

/-- Witness for C10: the telegram sequence 0x05, 0x0A, 0x00. -/
theorem buttonStates_eq_lastButtonMask_witness :
    ([5, 10, 0].foldl (fun bs v => (handleButtonData v bs).1)
      (⟨0, 0⟩ : ButtonState)).buttonStates =
    ([5, 10, 0].foldl (fun bs v => (handleButtonData v bs).1)
      (⟨0, 0⟩ : ButtonState)).lastButtonMask :=
  (buttonStates_eq_lastButtonMask [5, 10, 0] (by decide)).2.1

/-! ## Claim theorems: bare-LF disambiguation (C4) -/

/-- C4: for an input byte `b = LF (0x0A)` whose previous byte is not CR, the
demultiplexer decides by the ordered heuristic: (1) if the last known input
mask is non-zero, or the previous byte exists (`>= 0`) and is a control byte
below 0x20 other than CR, or the buffer is non-empty while the
expecting-text flag is false, the byte is treated as a state telegram —
`handleButtonData(0x0A)` runs and the buffer is cleared; (2) otherwise, if
expecting text with a non-empty buffer, the line completion fires,
emitting `TextLine` of the parsed buffer (`parseResponseLine`, which equals
the trimmed buffer whenever the trimmed buffer does not start with the 4-char
prompt marker; an all-whitespace buffer parses to `""` and routes nothing)
and clearing buffer and flag; (3) if expecting text with an empty buffer,
only the flag is cleared; (4) in every remaining case the byte is treated as
a `StateTelegram(0x0A)`. -/
theorem listen_bare_lf_disambiguation (st : ListenState)
    (hprev : st.lastByte ≠ 13) :
    ((st.buttons.lastButtonMask ≠ 0 ∨
        (0 ≤ st.lastByte ∧ st.lastByte < 32 ∧ st.lastByte ≠ 13) ∨
        (st.lineBuffer ≠ [] ∧ st.expectingTextMode = false)) →
      processByte st 10 =
        ({ st with buttons := (handleButtonData 10 st.buttons).1,
                   expectingTextMode := false, lineBuffer := [], lastByte := 10 },
         [.telegram 10])) ∧
    (¬(st.buttons.lastButtonMask ≠ 0 ∨
        (0 ≤ st.lastByte ∧ st.lastByte < 32 ∧ st.lastByte ≠ 13) ∨
        (st.lineBuffer ≠ [] ∧ st.expectingTextMode = false)) →
      st.expectingTextMode = true → st.lineBuffer ≠ [] →
      (processByte st 10 =
        ({ st with lineBuffer := [], expectingTextMode := false, lastByte := 10 },
         routeEvents st.lineBuffer) ∧
       (¬(promptMarker.isPrefixOf (trimChars (st.lineBuffer.map Char.ofNat))) →
         parseResponseLine st.lineBuffer =
           String.mk (trimChars (st.lineBuffer.map Char.ofNat))))) ∧
    (¬(st.buttons.lastButtonMask ≠ 0 ∨
        (0 ≤ st.lastByte ∧ st.lastByte < 32 ∧ st.lastByte ≠ 13) ∨
        (st.lineBuffer ≠ [] ∧ st.expectingTextMode = false)) →
      st.expectingTextMode = true → st.lineBuffer = [] →
      processByte st 10 =
        ({ st with expectingTextMode := false, lastByte := 10 }, [])) ∧
    (¬(st.buttons.lastButtonMask ≠ 0 ∨
        (0 ≤ st.lastByte ∧ st.lastByte < 32 ∧ st.lastByte ≠ 13) ∨
        (st.lineBuffer ≠ [] ∧ st.expectingTextMode = false)) →
      st.expectingTextMode = false →
      processByte st 10 =
        ({ st with buttons := (handleButtonData 10 st.buttons).1,
                   expectingTextMode := false, lineBuffer := [], lastByte := 10 },
         [.telegram 10])) := by
  have hc1 : ¬(st.lastByte = 13 ∧ (10 : Nat) = 10) := fun hh => hprev hh.1
  have hc2 : ¬((32 : Nat) ≤ 10 ∨ (10 : Nat) = 9) := by decide
  have hc3 : (10 : Nat) ≠ 13 := by decide
  refine ⟨?_, ?_, ?_, ?_⟩
  · intro hheur
    simp only [processByte, if_neg hc1, if_neg hc2, if_neg hc3, if_pos rfl,
      if_pos hheur]
    simp [hprev]
  · intro hheur hexp hbuf
    constructor
    · simp only [processByte, if_neg hc1, if_neg hc2, if_neg hc3, if_pos rfl,
        if_neg hheur, if_neg hprev, if_pos (And.intro hbuf hexp)]
      simp [hprev]
    · intro hmark
      simp only [parseResponseLine, if_neg hmark]
  · intro hheur hexp hbuf
    have hbne : ¬(st.lineBuffer ≠ [] ∧ st.expectingTextMode = true) :=
      fun hh => hh.1 hbuf
    simp only [processByte, if_neg hc1, if_neg hc2, if_neg hc3, if_pos rfl,
      if_neg hheur, if_neg hprev, if_neg hbne, if_pos hexp]
    simp [hprev]
  · intro hheur hexp
    have hbuf : st.lineBuffer = [] := by
      by_contra hb
      exact hheur (Or.inr (Or.inr ⟨hb, hexp⟩))
    have hbne : ¬(st.lineBuffer ≠ [] ∧ st.expectingTextMode = true) :=
      fun hh => hh.1 hbuf
    have hexpne : st.expectingTextMode ≠ true := by
      rw [hexp]; decide
    simp only [processByte, if_neg hc1, if_neg hc2, if_neg hc3, if_pos rfl,
      if_neg hheur, if_neg hprev, if_neg hbne, if_neg hexpne]
    simp [hprev, hbuf]

/-- Witness for C4: buffer "A" (byte 0x41), expecting text, previous byte
0x41, zero mask — a bare LF completes the LF-only text line "A". -/
theorem listen_bare_lf_disambiguation_witness :
    processByte ⟨[65], true, 65, ⟨0, 0⟩⟩ 10 =
      (⟨[], false, 10, ⟨0, 0⟩⟩, routeEvents [65]) ∧
    routeEvents [65] = [.textLine "A"] := by
  have h := listen_bare_lf_disambiguation ⟨[65], true, 65, ⟨0, 0⟩⟩ (by decide)
  exact ⟨(h.2.1 (by decide) rfl (by decide)).1, by decide⟩

end Makcu
